import Mathlib

/-!
Shallow embedding of the cloth simulation core of `bevy_silk`
(`src/cloth.rs` and `src/components/cloth_builder.rs`).

Modelling conventions:
* `f32` values are modelled as exact rationals (`ℚ`); the spec's
  "within floating-point tolerance" becomes exact equality.
* `f32::sqrt` is modelled by `ratSqrt`, an exact rational square root
  that agrees with the true square root whenever the numerator and
  denominator are perfect squares.  Every theorem that depends on the
  numeric value of a square root either carries an explicit exactness
  hypothesis (`ratSqrt q * ratSqrt q = q`) or is evaluated at inputs
  where `ratSqrt` is exact; statements that are independent of the
  square root's value hold for any value.
* `glam`'s `Vec3::try_normalize` returns `None` exactly when the vector
  cannot be normalized; in the exact model this is the zero vector
  (`norm2 v = 0`).
* `Mat4` values produced by bevy transforms are affine, and
  `Mat4::transform_point3` treats its matrix as affine; the model
  `Mat4A` carries the 3×3 linear block (row major) and the translation
  column.  `Mat4A.inverse` is the affine specialisation of the 4×4
  inverse (cofactor formulas); on a singular matrix the rational
  division by zero yields junk entries, matching the garbage `glam`
  returns there.
* `HashSet<usize>` is modelled as a `List Nat` queried through
  `contains`; `HashMap<usize, VertexAnchor>` is modelled as an
  association list with insert-overwrite semantics (`AMap.insert`
  replaces the value of an existing key, as `HashMap::insert` /
  `HashMap::extend` do), observed only through `AMap.lookup`.
* Rust's `Vec` indexing panics when out of range; the model totalises
  it with `List.getD _ V3.zero`.  No claim exercises an out-of-range
  read on the panicking paths (`positions[a]` in `init_from_mesh`);
  the guarded path (`get_point!`) is modelled faithfully with `Option`.
* `Mesh` is modelled at the attribute level: a position attribute
  (required by every claim; `init_from_mesh` panics without it), an
  optional index buffer (`Indices::U16`/`U32` both widen to `usize`,
  modelled directly as `Nat`), and an optional color attribute already
  decoded to linear `Color` records (the three supported encodings all
  normalize to `Color`; an unsupported or missing encoding is `none`).
-/

namespace BevySilk

/-- 3D vector with exact rational coordinates, modelling `glam::Vec3`. -/
structure V3 where
  x : ℚ
  y : ℚ
  z : ℚ
deriving DecidableEq, Repr

namespace V3

/-- The zero vector. -/
def zero : V3 := ⟨0, 0, 0⟩

instance : Add V3 := ⟨fun a b => ⟨a.x + b.x, a.y + b.y, a.z + b.z⟩⟩

instance : Sub V3 := ⟨fun a b => ⟨a.x - b.x, a.y - b.y, a.z - b.z⟩⟩

instance : Neg V3 := ⟨fun a => ⟨-a.x, -a.y, -a.z⟩⟩

theorem add_def (a b : V3) : a + b = ⟨a.x + b.x, a.y + b.y, a.z + b.z⟩ := rfl

theorem sub_def (a b : V3) : a - b = ⟨a.x - b.x, a.y - b.y, a.z - b.z⟩ := rfl

/-- Scalar multiplication `v * k` / `k * v`. -/
def scale (k : ℚ) (v : V3) : V3 := ⟨k * v.x, k * v.y, k * v.z⟩

/-- Squared Euclidean norm. -/
def norm2 (v : V3) : ℚ := v.x * v.x + v.y * v.y + v.z * v.z

end V3

/-- Structurally recursive integer square root (largest `k ≤ fuel` with
`k * k ≤ n`, started at `fuel = n`): kernel-reducible helper for
`ratSqrt`. -/
def isqrtGo : Nat → Nat → Nat
  | 0, _ => 0
  | k + 1, n => if (k + 1) * (k + 1) ≤ n then k + 1 else isqrtGo k n

/-- Integer square root (exact on perfect squares). -/
def isqrt (n : Nat) : Nat := isqrtGo n n

/-- Exact model of `f32::sqrt`: exact whenever numerator and denominator
are perfect squares (every input at which a theorem below relies on its
value), and some rational approximation elsewhere. -/
def ratSqrt (q : ℚ) : ℚ :=
  if q.num < 0 then 0 else (isqrt q.num.toNat : ℚ) / (isqrt q.den : ℚ)

namespace V3

/-- `glam::Vec3::distance`: Euclidean distance between two points. -/
def distance (a b : V3) : ℚ := ratSqrt (norm2 (a - b))

/-- `glam::Vec3::try_normalize`: `none` exactly when the vector is not
normalizable (zero length in the exact model), otherwise the vector
divided by its length. -/
def tryNormalize (v : V3) : Option V3 :=
  if norm2 v = 0 then none
  else some (scale (1 / ratSqrt (norm2 v)) v)

end V3

/-- Affine 4×4 matrix, modelling the `bevy::math::Mat4` values produced
by `GlobalTransform`: 3×3 linear block (row major: `mIJ` is row `I`,
column `J`) plus translation column, with last row `(0,0,0,1)`. -/
structure Mat4A where
  m00 : ℚ
  m01 : ℚ
  m02 : ℚ
  m10 : ℚ
  m11 : ℚ
  m12 : ℚ
  m20 : ℚ
  m21 : ℚ
  m22 : ℚ
  tx : ℚ
  ty : ℚ
  tz : ℚ
deriving DecidableEq, Repr

namespace Mat4A

/-- The identity matrix. -/
def id : Mat4A := ⟨1, 0, 0, 0, 1, 0, 0, 0, 1, 0, 0, 0⟩

/-- A pure translation matrix. -/
def translation (t : V3) : Mat4A := ⟨1, 0, 0, 0, 1, 0, 0, 0, 1, t.x, t.y, t.z⟩

/-- `Mat4::transform_point3`: apply the linear block and add the
translation (assumes an affine matrix, as `glam` documents). -/
def transformPoint3 (m : Mat4A) (p : V3) : V3 :=
  ⟨m.m00 * p.x + m.m01 * p.y + m.m02 * p.z + m.tx,
   m.m10 * p.x + m.m11 * p.y + m.m12 * p.z + m.ty,
   m.m20 * p.x + m.m21 * p.y + m.m22 * p.z + m.tz⟩

/-- Determinant of the linear block (equals the 4×4 determinant for an
affine matrix). -/
def det (m : Mat4A) : ℚ :=
  m.m00 * (m.m11 * m.m22 - m.m12 * m.m21)
    - m.m01 * (m.m10 * m.m22 - m.m12 * m.m20)
    + m.m02 * (m.m10 * m.m21 - m.m11 * m.m20)

/-- `Mat4::inverse`, specialised to affine matrices: adjugate of the
linear block over the determinant, translation `-(L⁻¹ t)`. -/
def inverse (m : Mat4A) : Mat4A :=
  let d := m.det
  let i00 := (m.m11 * m.m22 - m.m12 * m.m21) / d
  let i01 := (m.m02 * m.m21 - m.m01 * m.m22) / d
  let i02 := (m.m01 * m.m12 - m.m02 * m.m11) / d
  let i10 := (m.m12 * m.m20 - m.m10 * m.m22) / d
  let i11 := (m.m00 * m.m22 - m.m02 * m.m20) / d
  let i12 := (m.m02 * m.m10 - m.m00 * m.m12) / d
  let i20 := (m.m10 * m.m21 - m.m11 * m.m20) / d
  let i21 := (m.m01 * m.m20 - m.m00 * m.m21) / d
  let i22 := (m.m00 * m.m11 - m.m01 * m.m10) / d
  ⟨i00, i01, i02, i10, i11, i12, i20, i21, i22,
   -(i00 * m.tx + i01 * m.ty + i02 * m.tz),
   -(i10 * m.tx + i11 * m.ty + i12 * m.tz),
   -(i20 * m.tx + i21 * m.ty + i22 * m.tz)⟩

end Mat4A

/-- Decoded vertex color (`bevy::render::color::Color` after the
`Float32x3` / `Float32x4` / `Uint8x4` encodings are normalized). -/
structure Color where
  r : ℚ
  g : ℚ
  b : ℚ
  a : ℚ
deriving DecidableEq, Repr

/-- Modelled from the spec: `VertexAnchor` (file not under `src/`), the
per-anchor descriptor — "a small enum/record describing how the anchor
tracks the owner transform (e.g., 'fully follow transform' vs a custom
offset mode)".  Only its default value and decidable equality matter to
the claims. -/
inductive VertexAnchor where
  | follow : VertexAnchor
  | customOffset : V3 → VertexAnchor
deriving DecidableEq, Repr

instance : Inhabited VertexAnchor := ⟨VertexAnchor.follow⟩

/-- `crate::stick::Stick`: a distance constraint between two point
indices carrying its rest length. -/
structure Stick where
  point_a_index : Nat
  point_b_index : Nat
  length : ℚ
deriving DecidableEq, Repr

/-- The mesh data consumed by the cloth: position attribute (required),
optional index buffer, optional decoded color attribute. -/
structure Mesh where
  positions : List V3
  indices : Option (List Nat)
  colors : Option (List Color)

/-- `crate::config::ClothConfig` (file not under `src/`): the fields
`cloth.rs` reads, plus the spec-described tension limit.
`friction_coefficient` is modelled from the spec: "`damping` is a
configured scalar in [0,1] representing fractional velocity retention
per tick"; `max_tension` is modelled from the spec: "optional ratio
≥ 1.0; sticks exceeding `rest_length * max_tension` are candidates for
breaking" — `update_sticks` in `src/` never reads it. -/
structure ClothConfig where
  gravity : V3
  friction_coefficient : ℚ
  sticks_computation_depth : Nat
  max_tension : Option ℚ

/-- The `Cloth` component (`src/cloth.rs`). -/
structure Cloth where
  fixed_points : List Nat
  current_point_positions : List V3
  previous_point_positions : List V3
  sticks : List Stick

namespace Cloth

/-- `Cloth::new`. -/
def new (fixed_points : List Nat) : Cloth :=
  { fixed_points := fixed_points
    current_point_positions := []
    previous_point_positions := []
    sticks := [] }

/-- `Cloth::is_setup`. -/
def is_setup (c : Cloth) : Bool :=
  !c.current_point_positions.isEmpty

/-- The `get_point!` macro: `None` (→ `continue`) when the index is out
of range; otherwise the effective position — transformed by the matrix
for a fixed point — together with the fixed flag. -/
def getPoint (c : Cloth) (matrix : Mat4A) (id : Nat) : Option (V3 × Bool) :=
  match c.current_point_positions[id]? with
  | none => none
  | some p =>
    if c.fixed_points.contains id then some (matrix.transformPoint3 p, true)
    else some (p, false)

/-- `Cloth::apply_to_mesh`: write the simulated positions back into the
mesh's position attribute; fixed points are written as stored, free
points are pulled back through the inverse transform. -/
def applyToMesh (c : Cloth) (mesh : Mesh) (transform_matrix : Mat4A) : Mesh :=
  let matrix := transform_matrix.inverse
  let positions : List V3 :=
    c.current_point_positions.enum.map fun (i, p) =>
      if c.fixed_points.contains i then p else matrix.transformPoint3 p
  { mesh with positions := positions }

/-- `chunks_exact(3)` on the index buffer: consecutive disjoint triples,
dropping the 1–2 leftover indices of an incomplete final triple. -/
def chunks3 : List Nat → List (Nat × Nat × Nat)
  | a :: b :: c :: rest => (a, b, c) :: chunks3 rest
  | _ => []

/-- The three sticks `init_from_mesh` emits for one index triple
`(a, b, c)`: edges `(a,b)`, `(b,c)`, `(c,a)` with rest lengths the
distances of the (already transformed) baseline positions. -/
def sticksOfChunk (positions : List V3) (t : Nat × Nat × Nat) : List Stick :=
  let p_a := positions.getD t.1 V3.zero
  let p_b := positions.getD t.2.1 V3.zero
  let p_c := positions.getD t.2.2 V3.zero
  [{ point_a_index := t.1, point_b_index := t.2.1, length := p_a.distance p_b },
   { point_a_index := t.2.1, point_b_index := t.2.2, length := p_b.distance p_c },
   { point_a_index := t.2.2, point_b_index := t.1, length := p_c.distance p_a }]

/-- `Cloth::init_from_mesh`: transform every vertex position by the
owner matrix, and — when an index buffer is present — emit three sticks
per consecutive index triple with bind-time rest lengths; without
indices, log an error and return with the cloth untouched. -/
def initFromMesh (c : Cloth) (mesh : Mesh) (transform_matrix : Mat4A) : Cloth :=
  let positions : List V3 := mesh.positions.map transform_matrix.transformPoint3
  match mesh.indices with
  | none => c
  | some indices =>
    let sticks : List Stick := (chunks3 indices).flatMap (sticksOfChunk positions)
    { c with
      sticks := sticks
      previous_point_positions := positions
      current_point_positions := positions }

/-- One iteration of the `Cloth::update_points` loop body at index `i`:
the new current position (fixed points untouched). -/
def vCurr (fixed : List Nat) (friction delta_time : ℚ) (gravity : V3)
    (prev : List V3) (i : Nat) (p : V3) : V3 :=
  if fixed.contains i then p
  else
    let velocity := p - prev.getD i V3.zero
    p + V3.scale (friction * delta_time) velocity + gravity

/-- `Cloth::update_points`: Verlet integration of every non-fixed point;
`gravity` is pre-multiplied by `dt²` and `friction` is the configured
coefficient, exactly as in the source. -/
def updatePoints (c : Cloth) (delta_time : ℚ) (config : ClothConfig) : Cloth :=
  let gravity := V3.scale (delta_time * delta_time) config.gravity
  let friction := config.friction_coefficient
  { c with
    current_point_positions :=
      c.current_point_positions.enum.map fun (i, p) =>
        vCurr c.fixed_points friction delta_time gravity
          c.previous_point_positions i p
    previous_point_positions :=
      c.previous_point_positions.enum.map fun (i, pp) =>
        if c.fixed_points.contains i then pp
        else c.current_point_positions.getD i V3.zero }

/-- The body of the `update_sticks` inner loop for one stick: resolve
both endpoints (skipping the stick when either is out of range), halve
the target length when both endpoints share a fixed status, skip
degenerate sticks, and push each free endpoint to `center ± direction`. -/
def processStick (matrix : Mat4A) (c : Cloth) (stick : Stick) : Cloth :=
  match c.getPoint matrix stick.point_a_index with
  | none => c
  | some (position_a, fixed_a) =>
    match c.getPoint matrix stick.point_b_index with
    | none => c
    | some (position_b, fixed_b) =>
      let target_len :=
        if fixed_a = fixed_b then stick.length / 2 else stick.length
      let center := V3.scale (1 / 2) (position_b + position_a)
      match (position_b - position_a).tryNormalize with
      | none => c
      | some dir =>
        let direction := V3.scale target_len dir
        let c1 :=
          if fixed_a then c
          else { c with
                 current_point_positions :=
                   c.current_point_positions.set stick.point_a_index
                     (center + direction) }
        if fixed_b then c1
        else { c1 with
               current_point_positions :=
                 c1.current_point_positions.set stick.point_b_index
                   (center - direction) }

/-- One relaxation pass: fold the stick-correction body over the
(unchanging) stick list. -/
def stickPass (matrix : Mat4A) (c : Cloth) : Cloth :=
  c.sticks.foldl (processStick matrix) c

/-- `Cloth::update_sticks`: `sticks_computation_depth` relaxation
passes. -/
def updateSticks (c : Cloth) (config : ClothConfig) (matrix : Mat4A) : Cloth :=
  (stickPass matrix)^[config.sticks_computation_depth] c

/-- `Cloth::update`: integrate the points, then relax the sticks. -/
def update (c : Cloth) (config : ClothConfig) (delta_time : ℚ)
    (transform_matrix : Mat4A) : Cloth :=
  (c.updatePoints delta_time config).updateSticks config transform_matrix

end Cloth

/-- Association-list model of `bevy::utils::HashMap<usize, VertexAnchor>`,
observed only through `AMap.lookup`. -/
abbrev AMap := List (Nat × VertexAnchor)

namespace AMap

/-- Lookup: the value of the first (unique) entry with the given key. -/
def lookup (m : AMap) (k : Nat) : Option VertexAnchor :=
  match List.find? (fun p => p.1 = k) m with
  | none => none
  | some p => some p.2

/-- `HashMap::insert`: overwrite the value when the key is present,
append otherwise. -/
def insert (m : AMap) (k : Nat) (v : VertexAnchor) : AMap :=
  if (List.find? (fun p => p.1 = k) m).isSome then
    List.map (fun p => if p.1 = k then (k, v) else p) m
  else m ++ [(k, v)]

/-- `HashMap::extend`: insert every pair in order (later pairs
overwrite earlier values of the same key). -/
def extendPairs (m : AMap) (l : List (Nat × VertexAnchor)) : AMap :=
  l.foldl (fun acc p => insert acc p.1 p.2) m

end AMap

/-- The `find` step of the color source: the anchor of the first
configured `(color, anchor)` pair whose color equals the vertex color. -/
def colorAnchor (colors_cfg : List (Color × VertexAnchor)) (color : Color) :
    Option VertexAnchor :=
  match List.find? (fun p => p.1 = color) colors_cfg with
  | none => none
  | some p => some p.2

/-- The `ClothBuilder` fields read by `anchored_vertex_ids`
(`src/components/cloth_builder.rs`); position conditions are modelled
as boolean predicates, as in the source (`dyn Fn(Vec3) -> bool`). -/
structure ClothBuilder where
  anchored_vertex_ids : AMap
  anchored_vertex_colors : List (Color × VertexAnchor)
  anchored_position_conditions : List ((V3 → Bool) × VertexAnchor)

namespace ClothBuilder

/-- The color block of `anchored_vertex_ids`: when pinned colors are
configured, extend the accumulated map with every vertex whose decoded
color equals a configured color (first configured color wins within the
source); a missing or unsupported color attribute only logs a warning. -/
def colorStep (b : ClothBuilder) (mesh : Mesh) (res : AMap) : AMap :=
  if !b.anchored_vertex_colors.isEmpty then
    match mesh.colors with
    | some colors =>
      AMap.extendPairs res
        (colors.enum.filterMap fun p =>
          match colorAnchor b.anchored_vertex_colors p.2 with
          | none => none
          | some anchor => some (p.1, anchor))
    | none => res
  else res

/-- The position-condition block of `anchored_vertex_ids`: when
conditions are configured, extend the accumulated map with every
`(vertex, anchor)` pair of every matching condition, in order. -/
def positionStep (b : ClothBuilder) (mesh : Mesh) (res : AMap) : AMap :=
  if !b.anchored_position_conditions.isEmpty then
    AMap.extendPairs res
      (mesh.positions.enum.flatMap fun p =>
        b.anchored_position_conditions.filterMap fun c =>
          if c.1 p.2 then some (p.1, c.2) else none)
  else res

/-- `ClothBuilder::anchored_vertex_ids(&self, mesh)`: start from the
explicit ids, then run the color block, then the position block. -/
def anchoredVertexIds (b : ClothBuilder) (mesh : Mesh) : AMap :=
  positionStep b mesh (colorStep b mesh b.anchored_vertex_ids)

end ClothBuilder

/-! ### Helper definitions used by the theorem statements -/

/-- A stick the `update_sticks` pass skips: an endpoint index out of
range (`get_point!` returns `None` → `continue`) or coinciding effective
endpoint positions (`try_normalize` fails → `continue`). -/
def stickSkipped (c : Cloth) (m : Mat4A) (s : Stick) : Bool :=
  match c.getPoint m s.point_a_index, c.getPoint m s.point_b_index with
  | some (pa, _), some (pb, _) => if V3.norm2 (pb - pa) = 0 then true else false
  | _, _ => true

/-- Whether a stick connects vertex indices `i` and `j` (either
orientation). -/
def connects (s : Stick) (i j : Nat) : Bool :=
  (s.point_a_index == i && s.point_b_index == j)
    || (s.point_a_index == j && s.point_b_index == i)

/-- Follows the spec's words (§4.2 steps 3–5) for comparison with
`Cloth.processStick`: `target_length` is `rest/2` when the fixed flags
agree and `rest` otherwise, `center = (a + b)/2`,
`half = normalize(b - a) * target_length / 2`, and a free endpoint A is
claimed to be written to `center - half`. -/
def specClaimFreeA (pa pb : V3) (fixed_a fixed_b : Bool) (rest : ℚ) : V3 :=
  let target_length := if fixed_a = fixed_b then rest / 2 else rest
  let center := V3.scale (1 / 2) (pa + pb)
  let half := V3.scale (target_length / 2)
    (V3.scale (1 / ratSqrt (V3.norm2 (pb - pa))) (pb - pa))
  center - half

/-- The value selected from the last element of `l` on which `sel`
fires (the survivor of a left-to-right overwriting fold). -/
def chooseLast {β γ : Type} (sel : β → Option γ) : List β → Option γ
  | [] => none
  | x :: l =>
    match chooseLast sel l with
    | some v => some v
    | none => sel x

/-- The value of the last pair with key `k` in an insertion sequence
(what a fold of overwriting `HashMap::insert`s retains for `k`). -/
def lastMatch (l : List (Nat × VertexAnchor)) (k : Nat) : Option VertexAnchor :=
  chooseLast (fun p => if p.1 = k then some p.2 else none) l

/-- The anchor of the last condition in the list matching a position
(the value an overwriting extend retains for that vertex). -/
def lastCondMatch (conds : List ((V3 → Bool) × VertexAnchor))
    (pos : V3) : Option VertexAnchor :=
  chooseLast (fun c => if c.1 pos then some c.2 else none) conds

/-- What the color source contributes for vertex `i`: the first
configured color matching the vertex's color, when the mesh has colors. -/
def colorSourceMatch (b : ClothBuilder) (mesh : Mesh) (i : Nat) :
    Option VertexAnchor :=
  match mesh.colors with
  | none => none
  | some colors =>
    match colors[i]? with
    | none => none
    | some color => colorAnchor b.anchored_vertex_colors color

/-- What the position-predicate source contributes for vertex `i`: the
last configured condition matching the vertex's position. -/
def positionSourceMatch (b : ClothBuilder) (mesh : Mesh) (i : Nat) :
    Option VertexAnchor :=
  match mesh.positions[i]? with
  | none => none
  | some pos => lastCondMatch b.anchored_position_conditions pos

/-! ### Concrete fixtures used by witnesses and counterexamples -/

/-- A one-stick cloth with two free points at distance 2 and rest
length 1. -/
def testC1 : Cloth :=
  { fixed_points := []
    current_point_positions := [⟨0, 0, 0⟩, ⟨2, 0, 0⟩]
    previous_point_positions := [⟨0, 0, 0⟩, ⟨2, 0, 0⟩]
    sticks := [⟨0, 1, 1⟩] }

/-- One relaxation pass, no gravity or friction. -/
def testCfg1 : ClothConfig := ⟨V3.zero, 0, 1, none⟩

/-- One relaxation pass with a configured tension limit of `3/2`. -/
def testCfg4 : ClothConfig := ⟨V3.zero, 0, 1, some (3 / 2)⟩

/-- A cloth with point 0 anchored, used for the tick-invariance witness. -/
def wCloth5 : Cloth :=
  { fixed_points := [0]
    current_point_positions := [⟨1, 2, 3⟩, ⟨4, 5, 6⟩]
    previous_point_positions := [⟨1, 2, 3⟩, ⟨4, 5, 6⟩]
    sticks := [⟨0, 1, 1⟩] }

/-- Two passes, gravity and damping enabled. -/
def wCfg5 : ClothConfig := ⟨⟨0, -9, 0⟩, 1 / 2, 2, none⟩

/-- Opaque red, as decoded from any of the supported color encodings. -/
def redColor : Color := ⟨1, 0, 0, 1⟩

/-- A builder whose explicit-id source and color source both claim
vertex 0, with different descriptors. -/
def testBuilder2 : ClothBuilder :=
  { anchored_vertex_ids := [(0, VertexAnchor.follow)]
    anchored_vertex_colors := [(redColor, VertexAnchor.customOffset ⟨1, 0, 0⟩)]
    anchored_position_conditions := [] }

/-- A one-vertex mesh whose vertex 0 is red. -/
def testMesh2 : Mesh := ⟨[⟨0, 0, 0⟩], none, some [redColor]⟩

/-- A two-vertex mesh (vertex 0 at the origin) with an empty triangle
list, for the round-trip evaluation. -/
def testMesh3 : Mesh := ⟨[⟨0, 0, 0⟩, ⟨5, 0, 0⟩], some [], none⟩

/-- A pure translation by `(1, 0, 0)`. -/
def testT3 : Mat4A := Mat4A.translation ⟨1, 0, 0⟩

/-! ### Lemmas about the constraint solver -/

theorem getPoint_free {c : Cloth} {m : Mat4A} {id : Nat} {p : V3}
    (h : c.getPoint m id = some (p, false)) :
    c.current_point_positions[id]? = some p ∧ id ∉ c.fixed_points := by
  unfold Cloth.getPoint at h
  cases hg : c.current_point_positions[id]? with
  | none => simp [hg] at h
  | some q =>
    simp only [hg] at h
    by_cases hf : id ∈ c.fixed_points
    · simp [hf] at h
    · simp [hf] at h
      simp [hg, h, hf]

theorem processStick_fields (m : Mat4A) (c : Cloth) (s : Stick) :
    (Cloth.processStick m c s).fixed_points = c.fixed_points
      ∧ (Cloth.processStick m c s).sticks = c.sticks
      ∧ (Cloth.processStick m c s).previous_point_positions
          = c.previous_point_positions := by
  cases ha : c.getPoint m s.point_a_index with
  | none => simp [Cloth.processStick, ha]
  | some va =>
    obtain ⟨pa, fa⟩ := va
    cases hb : c.getPoint m s.point_b_index with
    | none => simp [Cloth.processStick, ha, hb]
    | some vb =>
      obtain ⟨pb, fb⟩ := vb
      cases hn : (pb - pa).tryNormalize with
      | none => simp [Cloth.processStick, ha, hb, hn]
      | some dir =>
        cases fa <;> cases fb <;> simp [Cloth.processStick, ha, hb, hn]

theorem processStick_fixed_getElem (m : Mat4A) (c : Cloth) (s : Stick) (i : Nat)
    (hi : i ∈ c.fixed_points) :
    (Cloth.processStick m c s).current_point_positions[i]?
      = c.current_point_positions[i]? := by
  cases ha : c.getPoint m s.point_a_index with
  | none => simp [Cloth.processStick, ha]
  | some va =>
    obtain ⟨pa, fa⟩ := va
    cases hb : c.getPoint m s.point_b_index with
    | none => simp [Cloth.processStick, ha, hb]
    | some vb =>
      obtain ⟨pb, fb⟩ := vb
      cases hn : (pb - pa).tryNormalize with
      | none => simp [Cloth.processStick, ha, hb, hn]
      | some dir =>
        have hwa : fa = false → s.point_a_index ≠ i := by
          intro hfa hcon
          exact (getPoint_free (hfa ▸ ha)).2 (hcon ▸ hi)
        have hwb : fb = false → s.point_b_index ≠ i := by
          intro hfb hcon
          exact (getPoint_free (hfb ▸ hb)).2 (hcon ▸ hi)
        cases fa <;> cases fb
        · simp [Cloth.processStick, ha, hb, hn,
            List.getElem?_set_ne (hwa rfl), List.getElem?_set_ne (hwb rfl)]
        · simp [Cloth.processStick, ha, hb, hn,
            List.getElem?_set_ne (hwa rfl)]
        · simp [Cloth.processStick, ha, hb, hn,
            List.getElem?_set_ne (hwb rfl)]
        · simp [Cloth.processStick, ha, hb, hn]

theorem foldl_processStick_fixed (m : Mat4A) (i : Nat) :
    ∀ (L : List Stick) (c : Cloth), i ∈ c.fixed_points →
      (L.foldl (Cloth.processStick m) c).current_point_positions[i]?
          = c.current_point_positions[i]?
        ∧ (L.foldl (Cloth.processStick m) c).fixed_points = c.fixed_points := by
  intro L
  induction L with
  | nil => intro c _; exact ⟨rfl, rfl⟩
  | cons s L ih =>
    intro c hi
    have hf := processStick_fields m c s
    have hi' : i ∈ (Cloth.processStick m c s).fixed_points := by
      rw [hf.1]; exact hi
    have := ih (Cloth.processStick m c s) hi'
    refine ⟨?_, ?_⟩
    · rw [List.foldl_cons, this.1, processStick_fixed_getElem m c s i hi]
    · rw [List.foldl_cons, this.2, hf.1]

theorem stickPass_fixed (m : Mat4A) (c : Cloth) (i : Nat)
    (hi : i ∈ c.fixed_points) :
    (Cloth.stickPass m c).current_point_positions[i]?
        = c.current_point_positions[i]?
      ∧ (Cloth.stickPass m c).fixed_points = c.fixed_points :=
  foldl_processStick_fixed m i c.sticks c hi

theorem updateSticks_fixed (c : Cloth) (config : ClothConfig) (m : Mat4A)
    (i : Nat) (hi : i ∈ c.fixed_points) :
    (c.updateSticks config m).current_point_positions[i]?
      = c.current_point_positions[i]? := by
  unfold Cloth.updateSticks
  generalize config.sticks_computation_depth = n
  induction n generalizing c with
  | zero => rfl
  | succ n ih =>
    rw [Function.iterate_succ_apply]
    have h1 := stickPass_fixed m c i hi
    rw [ih (Cloth.stickPass m c) (h1.2 ▸ hi), h1.1]

theorem updatePoints_fixed (c : Cloth) (dt : ℚ) (config : ClothConfig)
    (i : Nat) (hi : i ∈ c.fixed_points) :
    (c.updatePoints dt config).current_point_positions[i]?
        = c.current_point_positions[i]?
      ∧ (c.updatePoints dt config).fixed_points = c.fixed_points := by
  refine ⟨?_, rfl⟩
  show ((c.current_point_positions.enum.map _))[i]? = _
  rw [List.getElem?_map, List.getElem?_enum]
  cases hg : c.current_point_positions[i]? with
  | none => rfl
  | some p => simp [Cloth.vCurr, hi]

theorem updateSticks_single (c : Cloth) (config : ClothConfig) (m : Mat4A)
    (s : Stick) (hs : c.sticks = [s])
    (hd : config.sticks_computation_depth = 1) :
    c.updateSticks config m = Cloth.processStick m c s := by
  unfold Cloth.updateSticks
  rw [hd, Function.iterate_one]
  unfold Cloth.stickPass
  rw [hs]
  rfl

theorem processStick_writes (m : Mat4A) (c : Cloth) (s : Stick) (pa pb : V3)
    (fa fb : Bool)
    (ha : c.getPoint m s.point_a_index = some (pa, fa))
    (hb : c.getPoint m s.point_b_index = some (pb, fb))
    (hnz : V3.norm2 (pb - pa) ≠ 0) :
    (fa = false →
      (Cloth.processStick m c s).current_point_positions[s.point_a_index]?
        = some (V3.scale (1 / 2) (pb + pa)
            + V3.scale (if fa = fb then s.length / 2 else s.length)
                (V3.scale (1 / ratSqrt (V3.norm2 (pb - pa))) (pb - pa))))
    ∧ (fb = false →
      (Cloth.processStick m c s).current_point_positions[s.point_b_index]?
        = some (V3.scale (1 / 2) (pb + pa)
            - V3.scale (if fa = fb then s.length / 2 else s.length)
                (V3.scale (1 / ratSqrt (V3.norm2 (pb - pa))) (pb - pa)))) := by
  have hn : (pb - pa).tryNormalize
      = some (V3.scale (1 / ratSqrt (V3.norm2 (pb - pa))) (pb - pa)) := by
    simp [V3.tryNormalize, hnz]
  have hab : fa = false → fb = false → s.point_a_index ≠ s.point_b_index := by
    intro hfa hfb hcon
    have h1 := (getPoint_free (hfa ▸ ha)).1
    have h2 := (getPoint_free (hfb ▸ hb)).1
    rw [hcon, h2] at h1
    have : pb = pa := by injection h1
    apply hnz
    simp [this, V3.sub_def, V3.norm2]
  have hblt : s.point_b_index < c.current_point_positions.length := by
    by_contra hge
    have hnone : c.current_point_positions[s.point_b_index]? = none := by
      rw [List.getElem?_eq_none_iff]
      omega
    unfold Cloth.getPoint at hb
    rw [hnone] at hb
    simp at hb
  have halt : s.point_a_index < c.current_point_positions.length := by
    by_contra hge
    have hnone : c.current_point_positions[s.point_a_index]? = none := by
      rw [List.getElem?_eq_none_iff]
      omega
    unfold Cloth.getPoint at ha
    rw [hnone] at ha
    simp at ha
  cases fa <;> cases fb
  · refine ⟨fun _ => ?_, fun _ => ?_⟩
    · simp only [Cloth.processStick, ha, hb, hn]
      simp only [Bool.false_eq_true, if_false]
      rw [List.getElem?_set_ne (Ne.symm (hab rfl rfl)),
        List.getElem?_set_eq_of_lt _ halt]
    · simp only [Cloth.processStick, ha, hb, hn]
      simp only [Bool.false_eq_true, if_false]
      rw [List.getElem?_set_eq_of_lt _ (by simpa using hblt)]
  · refine ⟨fun _ => ?_, fun hcon => by simp at hcon⟩
    simp only [Cloth.processStick, ha, hb, hn]
    simp only [Bool.false_eq_true, if_false, if_true, reduceIte]
    rw [List.getElem?_set_eq_of_lt _ halt]
  · refine ⟨fun hcon => by simp at hcon, fun _ => ?_⟩
    simp only [Cloth.processStick, ha, hb, hn]
    simp only [Bool.false_eq_true, if_false, if_true, reduceIte]
    rw [List.getElem?_set_eq_of_lt _ hblt]
  · refine ⟨fun hcon => by simp at hcon, fun hcon => by simp at hcon⟩

theorem processStick_both_fixed (m : Mat4A) (c : Cloth) (s : Stick)
    (pa pb : V3)
    (ha : c.getPoint m s.point_a_index = some (pa, true))
    (hb : c.getPoint m s.point_b_index = some (pb, true)) :
    Cloth.processStick m c s = c := by
  cases hn : (pb - pa).tryNormalize with
  | none => simp [Cloth.processStick, ha, hb, hn]
  | some dir => simp [Cloth.processStick, ha, hb, hn]

/-! ### Claim theorems -/

/-- C1 (amended): in a relaxation pass, a processed stick with effective
endpoint positions `pa`, `pb` and a well-defined direction writes its
free endpoint A to `center + direction` and its free endpoint B to
`center - direction`, where `direction = normalize(pb - pa) *
target_len` and `target_len` is `rest/2` when the fixed flags agree and
`rest` otherwise (the spec's `center - half` / `center + half` with
`half = normalize * target_length / 2` has both signs flipped and, in
the mixed fixed/free case, half the magnitude). -/
theorem free_endpoint_formula (c : Cloth) (config : ClothConfig) (m : Mat4A)
    (s : Stick) (pa pb : V3) (fa fb : Bool)
    (hs : c.sticks = [s]) (hd : config.sticks_computation_depth = 1)
    (ha : c.getPoint m s.point_a_index = some (pa, fa))
    (hb : c.getPoint m s.point_b_index = some (pb, fb))
    (hnz : V3.norm2 (pb - pa) ≠ 0) :
    (fa = false →
      (c.updateSticks config m).current_point_positions[s.point_a_index]?
        = some (V3.scale (1 / 2) (pb + pa)
            + V3.scale (if fa = fb then s.length / 2 else s.length)
                (V3.scale (1 / ratSqrt (V3.norm2 (pb - pa))) (pb - pa))))
    ∧ (fb = false →
      (c.updateSticks config m).current_point_positions[s.point_b_index]?
        = some (V3.scale (1 / 2) (pb + pa)
            - V3.scale (if fa = fb then s.length / 2 else s.length)
                (V3.scale (1 / ratSqrt (V3.norm2 (pb - pa))) (pb - pa)))) := by
  rw [updateSticks_single c config m s hs hd]
  exact processStick_writes m c s pa pb fa fb ha hb hnz

/-- Witness for C1: at two free points `(0,0,0)` and `(2,0,0)` with rest
length 1, the pass moves point 0 to `(3/2, 0, 0)`. -/
theorem free_endpoint_formula_check :
    V3.norm2 ((⟨2, 0, 0⟩ : V3) - ⟨0, 0, 0⟩) ≠ 0
      ∧ (testC1.updateSticks testCfg1 Mat4A.id).current_point_positions[0]?
          = some ⟨3 / 2, 0, 0⟩ := by
  have hnz : V3.norm2 ((⟨2, 0, 0⟩ : V3) - ⟨0, 0, 0⟩) ≠ 0 := by
    norm_num [V3.norm2, V3.sub_def]
  refine ⟨hnz, ?_⟩
  have h := (free_endpoint_formula testC1 testCfg1 Mat4A.id ⟨0, 1, 1⟩
    ⟨0, 0, 0⟩ ⟨2, 0, 0⟩ false false rfl rfl rfl rfl hnz).1 rfl
  rw [h]
  norm_num [V3.scale, V3.add_def, V3.sub_def, V3.norm2, ratSqrt, isqrt, isqrtGo]

/-- Counterexample for C1 as stated: for the stick of `testC1` the code
writes point 0 (endpoint A, free) to `(3/2, 0, 0)`, while the spec's
`center - half` formula (evaluated under the exact square root) yields
`(3/4, 0, 0)`. -/
theorem free_endpoint_formula_cex :
    (testC1.updateSticks testCfg1 Mat4A.id).current_point_positions[0]?
        = some ⟨3 / 2, 0, 0⟩
      ∧ specClaimFreeA ⟨0, 0, 0⟩ ⟨2, 0, 0⟩ false false 1 = ⟨3 / 4, 0, 0⟩
      ∧ ((⟨3 / 2, 0, 0⟩ : V3) ≠ ⟨3 / 4, 0, 0⟩) := by
  refine ⟨?_, ?_, ?_⟩
  · norm_num [testC1, testCfg1, Cloth.updateSticks, Cloth.stickPass,
      Cloth.processStick, Cloth.getPoint, V3.tryNormalize, V3.norm2, V3.scale,
      V3.sub_def, V3.add_def, ratSqrt, Mat4A.id, Mat4A.transformPoint3,
      Function.iterate_one, isqrt, isqrtGo]
  · norm_num [specClaimFreeA, V3.scale, V3.add_def, V3.sub_def, V3.norm2,
      ratSqrt, isqrt, isqrtGo]
  · intro h
    have := congrArg V3.x h
    norm_num at this

/-- C5: a full tick (`Cloth::update` = Integrator then ConstraintSolver)
never changes the stored `current_point_positions` entry of an anchored
point. -/
theorem anchored_untouched (c : Cloth) (config : ClothConfig) (dt : ℚ)
    (m : Mat4A) (i : Nat) (hi : i ∈ c.fixed_points) :
    (c.update config dt m).current_point_positions[i]?
      = c.current_point_positions[i]? := by
  unfold Cloth.update
  have h1 := updatePoints_fixed c dt config i hi
  rw [updateSticks_fixed _ _ _ i (h1.2 ▸ hi), h1.1]

/-- Witness for C5: with gravity, damping, a stick to a free point and
two passes, anchored point 0 keeps its stored position. -/
theorem anchored_untouched_check :
    0 ∈ wCloth5.fixed_points
      ∧ (wCloth5.update wCfg5 1 Mat4A.id).current_point_positions[0]?
          = wCloth5.current_point_positions[0]? :=
  ⟨by simp [wCloth5],
    anchored_untouched wCloth5 wCfg5 1 Mat4A.id 0 (by simp [wCloth5])⟩

/-- C6: initialising a cloth from a mesh that has positions but no
index buffer leaves the cloth with no sticks, no point positions and
`is_setup = false`. -/
theorem init_no_indices (fixed : List Nat) (mesh : Mesh) (m : Mat4A)
    (h : mesh.indices = none) :
    ((Cloth.new fixed).initFromMesh mesh m).sticks = []
      ∧ ((Cloth.new fixed).initFromMesh mesh m).current_point_positions = []
      ∧ ((Cloth.new fixed).initFromMesh mesh m).is_setup = false := by
  unfold Cloth.initFromMesh
  simp [h, Cloth.new, Cloth.is_setup]

/-- Witness for C6: a one-vertex mesh without indices yields a cloth
that does not report itself as set up. -/
theorem init_no_indices_check :
    (⟨[⟨1, 2, 3⟩], none, none⟩ : Mesh).indices = none
      ∧ ((Cloth.new [0]).initFromMesh ⟨[⟨1, 2, 3⟩], none, none⟩ Mat4A.id).is_setup
          = false :=
  ⟨rfl, (init_no_indices [0] ⟨[⟨1, 2, 3⟩], none, none⟩ Mat4A.id rfl).2.2⟩

/-- C8: one relaxation pass on an isolated stick whose endpoints share a
fixed status and whose effective positions differ preserves the midpoint
of the two stored endpoint positions. -/
theorem midpoint_preserved (c : Cloth) (config : ClothConfig) (m : Mat4A)
    (s : Stick) (pa pb : V3) (f : Bool)
    (hs : c.sticks = [s]) (hd : config.sticks_computation_depth = 1)
    (ha : c.getPoint m s.point_a_index = some (pa, f))
    (hb : c.getPoint m s.point_b_index = some (pb, f))
    (hnz : V3.norm2 (pb - pa) ≠ 0) :
    V3.scale (1 / 2)
        ((c.updateSticks config m).current_point_positions.getD
            s.point_a_index V3.zero
          + (c.updateSticks config m).current_point_positions.getD
              s.point_b_index V3.zero)
      = V3.scale (1 / 2)
          (c.current_point_positions.getD s.point_a_index V3.zero
            + c.current_point_positions.getD s.point_b_index V3.zero) := by
  rw [updateSticks_single c config m s hs hd]
  cases f with
  | true => rw [processStick_both_fixed m c s pa pb ha hb]
  | false =>
    have hw := processStick_writes m c s pa pb false false ha hb hnz
    have hga := (getPoint_free ha).1
    have hgb := (getPoint_free hb).1
    rw [List.getD_eq_getElem?_getD, List.getD_eq_getElem?_getD,
      List.getD_eq_getElem?_getD, List.getD_eq_getElem?_getD,
      hw.1 rfl, hw.2 rfl, hga, hgb]
    simp only [Option.getD_some, V3.scale, V3.add_def, V3.sub_def, V3.mk.injEq]
    refine ⟨by ring, by ring, by ring⟩

/-- Witness for C8: for the free-free stick of `testC1` the midpoint
`(1,0,0)` is unchanged by the pass. -/
theorem midpoint_preserved_check :
    V3.norm2 ((⟨2, 0, 0⟩ : V3) - ⟨0, 0, 0⟩) ≠ 0
      ∧ V3.scale (1 / 2)
          ((testC1.updateSticks testCfg1 Mat4A.id).current_point_positions.getD
              0 V3.zero
            + (testC1.updateSticks testCfg1 Mat4A.id).current_point_positions.getD
                1 V3.zero)
        = V3.scale (1 / 2)
            (testC1.current_point_positions.getD 0 V3.zero
              + testC1.current_point_positions.getD 1 V3.zero) := by
  have hnz : V3.norm2 ((⟨2, 0, 0⟩ : V3) - ⟨0, 0, 0⟩) ≠ 0 := by
    norm_num [V3.norm2, V3.sub_def]
  exact ⟨hnz, midpoint_preserved testC1 testCfg1 Mat4A.id ⟨0, 1, 1⟩
    ⟨0, 0, 0⟩ ⟨2, 0, 0⟩ false rfl rfl rfl rfl hnz⟩

/-- C9: a stick the pass skips — an out-of-range endpoint index or
coinciding effective positions — leaves the cloth state exactly as it
was: the solver continues the tick and no point position is modified. -/
theorem skipped_stick_modifies_nothing (c : Cloth) (m : Mat4A) (s : Stick)
    (h : stickSkipped c m s = true) : Cloth.processStick m c s = c := by
  unfold stickSkipped at h
  cases ha : c.getPoint m s.point_a_index with
  | none => simp [Cloth.processStick, ha]
  | some va =>
    obtain ⟨pa, fa⟩ := va
    cases hb : c.getPoint m s.point_b_index with
    | none => simp [Cloth.processStick, ha, hb]
    | some vb =>
      obtain ⟨pb, fb⟩ := vb
      rw [ha, hb] at h
      have hz : V3.norm2 (pb - pa) = 0 := by
        by_cases hz : V3.norm2 (pb - pa) = 0
        · exact hz
        · simp [hz] at h
      have hn : (pb - pa).tryNormalize = none := by
        simp [V3.tryNormalize, hz]
      simp [Cloth.processStick, ha, hb, hn]

/-- Witness for C9: a stick whose endpoints are out of range on an empty
cloth is skipped and modifies nothing. -/
theorem skipped_stick_modifies_nothing_check :
    stickSkipped (Cloth.new []) Mat4A.id ⟨0, 1, 1⟩ = true
      ∧ Cloth.processStick Mat4A.id (Cloth.new []) ⟨0, 1, 1⟩ = Cloth.new [] :=
  ⟨rfl, skipped_stick_modifies_nothing _ _ _ rfl⟩

theorem getD_map_of_lt (ps : List V3) (f : V3 → V3) (i : Nat)
    (hi : i < ps.length) :
    (ps.map f)[i]? = some (f (ps.getD i V3.zero)) := by
  rw [List.getElem?_map, List.getD_eq_getElem?_getD, List.getElem?_eq_getElem hi]
  simp

/-- C7: the shared-edge triangle list `[0,1,2, 1,2,3]` produces exactly
six sticks, exactly two of which connect vertices 1 and 2, both with
rest length equal to the baseline distance between points 1 and 2. -/
theorem shared_edge_two_sticks (ps : List V3) (cols : Option (List Color))
    (fixed : List Nat) (m : Mat4A) (h : 3 < ps.length) :
    ((Cloth.new fixed).initFromMesh
          ⟨ps, some [0, 1, 2, 1, 2, 3], cols⟩ m).sticks.length = 6
      ∧ ((Cloth.new fixed).initFromMesh
            ⟨ps, some [0, 1, 2, 1, 2, 3], cols⟩ m).sticks.filter
              (fun s => connects s 1 2)
          = [⟨1, 2, (m.transformPoint3 (ps.getD 1 V3.zero)).distance
                (m.transformPoint3 (ps.getD 2 V3.zero))⟩,
             ⟨1, 2, (m.transformPoint3 (ps.getD 1 V3.zero)).distance
                (m.transformPoint3 (ps.getD 2 V3.zero))⟩] := by
  have h1 := getD_map_of_lt ps m.transformPoint3 1 (by omega)
  have h2 := getD_map_of_lt ps m.transformPoint3 2 (by omega)
  constructor
  · simp [Cloth.initFromMesh, Cloth.chunks3, Cloth.sticksOfChunk]
  · simp [Cloth.initFromMesh, Cloth.chunks3, Cloth.sticksOfChunk, connects,
      List.filter, List.getD_eq_getElem?_getD, h1, h2]

/-- Witness for C7: a concrete four-vertex two-triangle mesh yields six
sticks. -/
theorem shared_edge_two_sticks_check :
    3 < ([⟨0, 0, 0⟩, ⟨1, 0, 0⟩, ⟨0, 1, 0⟩, ⟨1, 1, 0⟩] : List V3).length
      ∧ ((Cloth.new []).initFromMesh
            ⟨[⟨0, 0, 0⟩, ⟨1, 0, 0⟩, ⟨0, 1, 0⟩, ⟨1, 1, 0⟩],
              some [0, 1, 2, 1, 2, 3], none⟩ Mat4A.id).sticks.length = 6 :=
  ⟨by norm_num,
    (shared_edge_two_sticks [⟨0, 0, 0⟩, ⟨1, 0, 0⟩, ⟨0, 1, 0⟩, ⟨1, 1, 0⟩]
      none [] Mat4A.id (by norm_num)).1⟩

theorem chunks3_facts :
    ∀ (n : Nat) (l : List Nat), l.length ≤ n →
      Cloth.chunks3 (l.take (3 * (l.length / 3))) = Cloth.chunks3 l
        ∧ (Cloth.chunks3 l).length = l.length / 3 := by
  intro n
  induction n with
  | zero =>
    intro l hl
    have : l = [] := List.eq_nil_of_length_eq_zero (Nat.le_zero.mp hl)
    subst this
    exact ⟨rfl, rfl⟩
  | succ n ih =>
    intro l hl
    match l with
    | [] => exact ⟨rfl, rfl⟩
    | [a] => exact ⟨by norm_num [Cloth.chunks3], by norm_num [Cloth.chunks3]⟩
    | [a, b] =>
      exact ⟨by norm_num [Cloth.chunks3], by norm_num [Cloth.chunks3]⟩
    | a :: b :: c :: rest =>
      have hlen : (a :: b :: c :: rest).length = rest.length + 3 := by simp
      have hdiv : (rest.length + 3) / 3 = rest.length / 3 + 1 := by omega
      have hr : rest.length ≤ n := by
        simp at hl
        omega
      have := ih rest hr
      constructor
      · rw [hlen, hdiv]
        have h3 : 3 * (rest.length / 3 + 1) = 3 * (rest.length / 3) + 3 := by
          ring
        rw [h3]
        show Cloth.chunks3 (a :: b :: c :: rest.take (3 * (rest.length / 3)))
          = Cloth.chunks3 (a :: b :: c :: rest)
        unfold Cloth.chunks3
        rw [this.1]
      · rw [hlen, hdiv]
        unfold Cloth.chunks3
        simpa using this.2

theorem length_flatMap_sticksOfChunk (positions : List V3) :
    ∀ L : List (Nat × Nat × Nat),
      (L.flatMap (Cloth.sticksOfChunk positions)).length = 3 * L.length := by
  intro L
  induction L with
  | nil => rfl
  | cons x L ih =>
    rw [List.flatMap_cons, List.length_append, ih]
    simp [Cloth.sticksOfChunk]
    ring

/-- C10: an index buffer whose length is not a multiple of 3 behaves
exactly like its truncation to `3 * (len / 3)` entries — the 1–2
leftover indices are silently ignored — and `3 * (len / 3)` sticks are
produced. -/
theorem leftover_indices_ignored (c : Cloth) (ps : List V3)
    (cols : Option (List Color)) (m : Mat4A) (idx : List Nat)
    (h : idx.length % 3 ≠ 0) :
    c.initFromMesh ⟨ps, some idx, cols⟩ m
        = c.initFromMesh ⟨ps, some (idx.take (3 * (idx.length / 3))), cols⟩ m
      ∧ (c.initFromMesh ⟨ps, some idx, cols⟩ m).sticks.length
          = 3 * (idx.length / 3) := by
  have hfacts := chunks3_facts idx.length idx (Nat.le_refl _)
  constructor
  · simp only [Cloth.initFromMesh]
    rw [hfacts.1]
  · simp only [Cloth.initFromMesh]
    rw [length_flatMap_sticksOfChunk, hfacts.2]

/-- Witness for C10: the 4-entry index list `[0,1,2,1]` yields exactly
3 sticks. -/
theorem leftover_indices_ignored_check :
    ([0, 1, 2, 1] : List Nat).length % 3 ≠ 0
      ∧ ((Cloth.new []).initFromMesh
            ⟨[⟨0, 0, 0⟩, ⟨1, 0, 0⟩, ⟨0, 1, 0⟩], some [0, 1, 2, 1], none⟩
            Mat4A.id).sticks.length
          = 3 * (([0, 1, 2, 1] : List Nat).length / 3) :=
  ⟨by norm_num,
    (leftover_indices_ignored (Cloth.new []) [⟨0, 0, 0⟩, ⟨1, 0, 0⟩, ⟨0, 1, 0⟩]
      none Mat4A.id [0, 1, 2, 1] (by norm_num)).2⟩

/-- C3 (code bug): initialising from `testMesh3` under a translation by
`(1,0,0)` and applying straight back writes `(1,0,0)` — the anchored
vertex's world-space position — into the mesh, not its original local
position `(0,0,0)`; the free vertex round-trips to `(5,0,0)`.
`init_from_mesh` transforms anchored baselines into world space while
`apply_to_mesh` writes them back untransformed. -/
theorem roundtrip_anchored_bug :
    (((Cloth.new [0]).initFromMesh testMesh3 testT3).applyToMesh
          testMesh3 testT3).positions = [⟨1, 0, 0⟩, ⟨5, 0, 0⟩]
      ∧ testMesh3.positions = [⟨0, 0, 0⟩, ⟨5, 0, 0⟩]
      ∧ ((⟨1, 0, 0⟩ : V3) ≠ ⟨0, 0, 0⟩) := by
  refine ⟨?_, rfl, ?_⟩
  · norm_num [Cloth.new, Cloth.initFromMesh, Cloth.applyToMesh, Cloth.chunks3,
      Cloth.sticksOfChunk, testMesh3, testT3, Mat4A.translation, Mat4A.inverse,
      Mat4A.det, Mat4A.transformPoint3, List.enum, List.enumFrom, V3.mk.injEq]
  · intro hcon
    have := congrArg V3.x hcon
    norm_num at this

/-- C4 (code bug): with `max_tension = 3/2` configured and a stick of
rest length 1 stretched to distance 2 (tension 2 > 3/2), a relaxation
pass neither removes the stick nor leaves its endpoints uncorrected:
`update_sticks` has no tension-breaking branch, keeps the stick, and
moves both endpoints. -/
theorem tension_breaking_absent :
    (⟨0, 0, 0⟩ : V3).distance ⟨2, 0, 0⟩ = 2
      ∧ ((2 : ℚ) > 1 * (3 / 2))
      ∧ (testC1.updateSticks testCfg4 Mat4A.id).sticks = testC1.sticks
      ∧ (testC1.updateSticks testCfg4 Mat4A.id).current_point_positions
          = [⟨3 / 2, 0, 0⟩, ⟨1 / 2, 0, 0⟩]
      ∧ testC1.current_point_positions = [⟨0, 0, 0⟩, ⟨2, 0, 0⟩] := by
  refine ⟨?_, by norm_num, ?_, ?_, rfl⟩
  · norm_num [V3.distance, V3.norm2, V3.sub_def, ratSqrt, isqrt, isqrtGo]
  · norm_num [testC1, testCfg4, Cloth.updateSticks, Cloth.stickPass,
      Cloth.processStick, Cloth.getPoint, V3.tryNormalize, V3.norm2, V3.scale,
      V3.sub_def, V3.add_def, ratSqrt, Mat4A.id, Mat4A.transformPoint3,
      Function.iterate_one, isqrt, isqrtGo]
  · norm_num [testC1, testCfg4, Cloth.updateSticks, Cloth.stickPass,
      Cloth.processStick, Cloth.getPoint, V3.tryNormalize, V3.norm2, V3.scale,
      V3.sub_def, V3.add_def, ratSqrt, Mat4A.id, Mat4A.transformPoint3,
      Function.iterate_one, isqrt, isqrtGo]

end BevySilk

namespace BevySilk

theorem chooseLast_cons {β γ : Type} (sel : β → Option γ) (x : β) (l : List β) :
    chooseLast sel (x :: l)
      = match chooseLast sel l with
        | some v => some v
        | none => sel x := rfl

theorem chooseLast_append {β γ : Type} (sel : β → Option γ) (l₁ l₂ : List β) :
    chooseLast sel (l₁ ++ l₂)
      = match chooseLast sel l₂ with
        | some v => some v
        | none => chooseLast sel l₁ := by
  induction l₁ with
  | nil =>
    rw [List.nil_append]
    cases h2 : chooseLast sel l₂ <;> simp [chooseLast]
  | cons x l ih =>
    rw [List.cons_append, chooseLast_cons, ih, chooseLast_cons]
    cases h2 : chooseLast sel l₂ <;> cases h1 : chooseLast sel l <;> simp

theorem chooseLast_of_none {β γ : Type} (sel : β → Option γ) :
    ∀ l : List β, (∀ x ∈ l, sel x = none) → chooseLast sel l = none := by
  intro l
  induction l with
  | nil => intro _; rfl
  | cons x l ih =>
    intro h
    rw [chooseLast_cons, ih (fun y hy => h y (List.mem_cons_of_mem x hy)),
      h x (List.mem_cons_self x l)]

theorem AMap.lookup_cons_hit {hd : Nat × VertexAnchor} {tl : AMap} {k : Nat}
    (h : hd.1 = k) : AMap.lookup (hd :: tl) k = some hd.2 := by
  unfold AMap.lookup
  rw [@List.find?_cons_of_pos _ (fun p => decide (p.1 = k)) hd tl
    (decide_eq_true h)]

theorem AMap.lookup_cons_miss {hd : Nat × VertexAnchor} {tl : AMap} {k : Nat}
    (h : ¬ hd.1 = k) : AMap.lookup (hd :: tl) k = AMap.lookup tl k := by
  unfold AMap.lookup
  rw [@List.find?_cons_of_neg _ (fun p => decide (p.1 = k)) hd tl
    (by simp [h])]

theorem lookup_map_replace (k : Nat) (v : VertexAnchor) (k' : Nat) :
    ∀ m : AMap,
      AMap.lookup (m.map (fun p => if p.1 = k then (k, v) else p)) k'
        = if k' = k then
            (if (List.find? (fun p => p.1 = k) m).isSome then some v else none)
          else AMap.lookup m k' := by
  intro m
  induction m with
  | nil => by_cases h2 : k' = k <;> simp [AMap.lookup, h2]
  | cons hd tl ih =>
    rw [List.map_cons]
    by_cases h1 : hd.1 = k
    · rw [if_pos h1, @List.find?_cons_of_pos _ (fun p => decide (p.1 = k)) hd tl
        (decide_eq_true h1)]
      by_cases h2 : k' = k
      · rw [AMap.lookup_cons_hit (show ((k, v) : Nat × VertexAnchor).1 = k' from h2.symm),
          if_pos h2]
        simp
      · rw [AMap.lookup_cons_miss (show ¬ ((k, v) : Nat × VertexAnchor).1 = k' from
            fun hc => h2 hc.symm), ih, if_neg h2, if_neg h2,
          AMap.lookup_cons_miss (fun hc => h2 (h1.symm.trans hc).symm)]
    · rw [if_neg h1, @List.find?_cons_of_neg _ (fun p => decide (p.1 = k)) hd tl
        (by simp [h1])]
      by_cases h3 : hd.1 = k'
      · have h2 : ¬ k' = k := fun hc => h1 (h3.trans hc)
        rw [AMap.lookup_cons_hit h3, if_neg h2, AMap.lookup_cons_hit h3]
      · rw [AMap.lookup_cons_miss h3, ih, AMap.lookup_cons_miss h3]

theorem lookup_append_single (m : AMap) (k : Nat) (v : VertexAnchor)
    (k' : Nat) :
    AMap.lookup (m ++ [(k, v)]) k'
      = match AMap.lookup m k' with
        | some w => some w
        | none => if k' = k then some v else none := by
  induction m with
  | nil =>
    rw [List.nil_append]
    by_cases h : k = k'
    · rw [AMap.lookup_cons_hit h]
      simp [AMap.lookup, h.symm]
    · have h' : ¬ k' = k := fun hc => h hc.symm
      rw [AMap.lookup_cons_miss h]
      simp [AMap.lookup, h']
  | cons hd tl ih =>
    rw [List.cons_append]
    by_cases h3 : hd.1 = k'
    · rw [AMap.lookup_cons_hit h3, AMap.lookup_cons_hit h3]
    · rw [AMap.lookup_cons_miss h3, AMap.lookup_cons_miss h3, ih]

theorem lookup_insert (m : AMap) (k : Nat) (v : VertexAnchor) (k' : Nat) :
    AMap.lookup (AMap.insert m k v) k'
      = if k' = k then some v else AMap.lookup m k' := by
  unfold AMap.insert
  by_cases hs : (List.find? (fun p => p.1 = k) m).isSome = true
  · rw [if_pos hs, lookup_map_replace]
    by_cases h2 : k' = k <;> simp [h2, hs]
  · rw [if_neg hs, lookup_append_single]
    have hnone : AMap.lookup m k = none := by
      unfold AMap.lookup
      cases hf : List.find? (fun p => p.1 = k) m with
      | none => rfl
      | some p => rw [hf] at hs; simp at hs
    by_cases h2 : k' = k
    · rw [h2, hnone, if_pos rfl]
    · cases hl : AMap.lookup m k' <;> simp [h2]

theorem lookup_extendPairs :
    ∀ (l : List (Nat × VertexAnchor)) (m : AMap) (k : Nat),
      AMap.lookup (AMap.extendPairs m l) k
        = match lastMatch l k with
          | some v => some v
          | none => AMap.lookup m k := by
  intro l
  induction l with
  | nil => intro m k; simp [AMap.extendPairs, lastMatch, chooseLast]
  | cons p l ih =>
    intro m k
    show AMap.lookup (AMap.extendPairs (AMap.insert m p.1 p.2) l) k = _
    rw [ih]
    have hcons : lastMatch (p :: l) k
        = match lastMatch l k with
          | some v => some v
          | none => if p.1 = k then some p.2 else none := by
      simp only [lastMatch]
      rw [chooseLast_cons]
      cases chooseLast (fun q : Nat × VertexAnchor =>
        if q.1 = k then some q.2 else none) l <;> rfl
    rw [hcons]
    cases hl : lastMatch l k with
    | some w => simp
    | none =>
      rw [lookup_insert]
      by_cases h : p.1 = k
      · rw [if_pos h, if_pos h.symm]
      · rw [if_neg h, if_neg (fun hc => h hc.symm)]

theorem lastMatch_cons (q : Nat × VertexAnchor) (l : List (Nat × VertexAnchor))
    (k : Nat) :
    lastMatch (q :: l) k
      = match lastMatch l k with
        | some v => some v
        | none => if q.1 = k then some q.2 else none := by
  simp only [lastMatch]
  rw [chooseLast_cons]
  cases chooseLast (fun p : Nat × VertexAnchor =>
    if p.1 = k then some p.2 else none) l <;> rfl

theorem lastMatch_append (l₁ l₂ : List (Nat × VertexAnchor)) (k : Nat) :
    lastMatch (l₁ ++ l₂) k
      = match lastMatch l₂ k with
        | some v => some v
        | none => lastMatch l₁ k := by
  simp only [lastMatch]
  rw [chooseLast_append]
  cases chooseLast (fun p : Nat × VertexAnchor =>
    if p.1 = k then some p.2 else none) l₂ <;> rfl

theorem lastMatch_keys_ne (l : List (Nat × VertexAnchor)) (k : Nat)
    (h : ∀ q ∈ l, q.1 ≠ k) : lastMatch l k = none := by
  simp only [lastMatch]
  exact chooseLast_of_none _ l (fun q hq => if_neg (h q hq))

theorem lastMatch_enumFrom_filterMap {α : Type} (g : α → Option VertexAnchor)
    (k : Nat) :
    ∀ (xs : List α) (n : Nat),
      lastMatch ((List.enumFrom n xs).filterMap fun p =>
          match g p.2 with | none => none | some a => some (p.1, a)) k
        = if n ≤ k then
            match xs[k - n]? with
            | none => none
            | some x => g x
          else none := by
  intro xs
  induction xs with
  | nil =>
    intro n
    by_cases h : n ≤ k <;> simp [h, lastMatch, chooseLast]
  | cons x xs ih =>
    intro n
    have hEF : List.enumFrom n (x :: xs) = (n, x) :: List.enumFrom (n + 1) xs :=
      rfl
    rw [hEF, List.filterMap_cons]
    cases hg : g x with
    | none =>
      rw [ih (n + 1)]
      by_cases h1 : n ≤ k
      · by_cases h2 : n + 1 ≤ k
        · rw [if_pos h2, if_pos h1]
          have hkn : k - n = (k - (n + 1)) + 1 := by omega
          rw [hkn, List.getElem?_cons_succ]
        · have hk : k = n := by omega
          rw [if_neg h2, if_pos h1]
          subst hk
          simp [hg]
      · have h2 : ¬ n + 1 ≤ k := by omega
        rw [if_neg h2, if_neg h1]
    | some a =>
      rw [lastMatch_cons, ih (n + 1)]
      by_cases h1 : n ≤ k
      · by_cases h2 : n + 1 ≤ k
        · rw [if_pos h2, if_pos h1]
          have hkn : k - n = (k - (n + 1)) + 1 := by omega
          rw [hkn, List.getElem?_cons_succ]
          have hne : ¬ n = k := by omega
          cases xs[k - (n + 1)]? with
          | none => simp [hne]
          | some y => rcases hgy : g y with _ | w <;> simp [hgy, hne]
        · have hk : k = n := by omega
          rw [if_neg h2, if_pos h1]
          subst hk
          simp [hg]
      · have h2 : ¬ n + 1 ≤ k := by omega
        have hne : ¬ n = k := by omega
        rw [if_neg h2, if_neg h1]
        simp [hne]

theorem lastMatch_enumFrom_flatMap (F : Nat × V3 → List (Nat × VertexAnchor))
    (hF : ∀ p q, q ∈ F p → q.1 = p.1) (k : Nat) :
    ∀ (xs : List V3) (n : Nat),
      lastMatch ((List.enumFrom n xs).flatMap F) k
        = if n ≤ k then
            match xs[k - n]? with
            | none => none
            | some x => lastMatch (F (k, x)) k
          else none := by
  intro xs
  induction xs with
  | nil =>
    intro n
    by_cases h : n ≤ k <;> simp [h, lastMatch, chooseLast]
  | cons x xs ih =>
    intro n
    have hEF : List.enumFrom n (x :: xs) = (n, x) :: List.enumFrom (n + 1) xs :=
      rfl
    rw [hEF, List.flatMap_cons, lastMatch_append, ih (n + 1)]
    by_cases h1 : n ≤ k
    · by_cases h2 : n + 1 ≤ k
      · rw [if_pos h2, if_pos h1]
        have hkn : k - n = (k - (n + 1)) + 1 := by omega
        rw [hkn, List.getElem?_cons_succ]
        have hz : lastMatch (F (n, x)) k = none :=
          lastMatch_keys_ne _ _ (fun q hq => by
            rw [hF (n, x) q hq]
            omega)
        cases xs[k - (n + 1)]? with
        | none => simp [hz]
        | some y =>
          rcases hly : lastMatch (F (k, y)) k with _ | w <;> simp [hly, hz]
      · have hk : k = n := by omega
        rw [if_neg h2, if_pos h1]
        subst hk
        simp
    · have h2 : ¬ n + 1 ≤ k := by omega
      have hz : lastMatch (F (n, x)) k = none :=
        lastMatch_keys_ne _ _ (fun q hq => by
          rw [hF (n, x) q hq]
          omega)
      rw [if_neg h2, if_neg h1]
      simp [hz]

theorem lastCondMatch_cons (c : (V3 → Bool) × VertexAnchor)
    (conds : List ((V3 → Bool) × VertexAnchor)) (pos : V3) :
    lastCondMatch (c :: conds) pos
      = match lastCondMatch conds pos with
        | some v => some v
        | none => if c.1 pos then some c.2 else none := by
  simp only [lastCondMatch]
  rw [chooseLast_cons]
  cases chooseLast (fun q : (V3 → Bool) × VertexAnchor =>
    if q.1 pos then some q.2 else none) conds <;> rfl

theorem lastMatch_filterMap_conds
    (conds : List ((V3 → Bool) × VertexAnchor)) (pos : V3) (k : Nat) :
    lastMatch (conds.filterMap fun c =>
        if c.1 pos then some (k, c.2) else none) k
      = lastCondMatch conds pos := by
  induction conds with
  | nil => rfl
  | cons c conds ih =>
    rw [List.filterMap_cons, lastCondMatch_cons]
    by_cases hc : c.1 pos = true
    · rw [if_pos hc, if_pos hc, lastMatch_cons, ih]
      rcases hl : lastCondMatch conds pos with _ | w <;> simp [hl]
    · rw [if_neg hc, if_neg hc, ih]
      rcases hl : lastCondMatch conds pos with _ | w <;> simp [hl]

theorem lookup_colorStep (b : ClothBuilder) (mesh : Mesh) (res : AMap)
    (i : Nat) :
    AMap.lookup (ClothBuilder.colorStep b mesh res) i
      = match colorSourceMatch b mesh i with
        | some a => some a
        | none => AMap.lookup res i := by
  unfold ClothBuilder.colorStep colorSourceMatch
  by_cases hemp : b.anchored_vertex_colors.isEmpty = true
  · have hnil := List.isEmpty_iff.mp hemp
    rw [hnil]
    simp only [List.isEmpty_nil, Bool.not_true, Bool.false_eq_true, if_false]
    cases hm : mesh.colors with
    | none => rfl
    | some colors =>
      cases hci : colors[i]? with
      | none => simp [hci]
      | some c => simp [hci, colorAnchor]
  · have hguard : (!b.anchored_vertex_colors.isEmpty) = true := by
      revert hemp
      cases b.anchored_vertex_colors.isEmpty <;> simp
    rw [if_pos hguard]
    cases hm : mesh.colors with
    | none => rfl
    | some colors =>
      rw [lookup_extendPairs,
        show List.enum colors = List.enumFrom 0 colors from rfl,
        lastMatch_enumFrom_filterMap (colorAnchor b.anchored_vertex_colors)
          i colors 0,
        if_pos (Nat.zero_le i), Nat.sub_zero]
      cases hci : colors[i]? with
      | none => simp [hci]
      | some c =>
        rcases hca : colorAnchor b.anchored_vertex_colors c with _ | a <;>
          simp [hci, hca]

theorem lookup_positionStep (b : ClothBuilder) (mesh : Mesh) (res : AMap)
    (i : Nat) :
    AMap.lookup (ClothBuilder.positionStep b mesh res) i
      = match positionSourceMatch b mesh i with
        | some a => some a
        | none => AMap.lookup res i := by
  unfold ClothBuilder.positionStep positionSourceMatch
  by_cases hemp : b.anchored_position_conditions.isEmpty = true
  · have hnil := List.isEmpty_iff.mp hemp
    rw [hnil]
    simp only [List.isEmpty_nil, Bool.not_true, Bool.false_eq_true, if_false]
    cases hpi : mesh.positions[i]? with
    | none => simp [hpi]
    | some pos => simp [hpi, lastCondMatch, chooseLast]
  · have hguard : (!b.anchored_position_conditions.isEmpty) = true := by
      revert hemp
      cases b.anchored_position_conditions.isEmpty <;> simp
    rw [if_pos hguard]
    have hF : ∀ (p : Nat × V3) (q : Nat × VertexAnchor),
        q ∈ b.anchored_position_conditions.filterMap (fun c =>
          if c.1 p.2 then some (p.1, c.2) else none) → q.1 = p.1 := by
      intro p q hq
      rcases List.mem_filterMap.mp hq with ⟨c, _, hsome⟩
      by_cases h : c.1 p.2 = true
      · rw [if_pos h] at hsome
        cases hsome
        rfl
      · rw [if_neg h] at hsome
        cases hsome
    rw [lookup_extendPairs,
      show List.enum mesh.positions = List.enumFrom 0 mesh.positions from rfl,
      lastMatch_enumFrom_flatMap _ hF i mesh.positions 0,
      if_pos (Nat.zero_le i), Nat.sub_zero]
    cases hpi : mesh.positions[i]? with
    | none => simp [hpi]
    | some pos =>
      show (match lastMatch (List.filterMap
            (fun c => if c.1 pos = true then some (i, c.2) else none)
            b.anchored_position_conditions) i with
          | some v => some v
          | none => AMap.lookup res i)
        = match lastCondMatch b.anchored_position_conditions pos with
          | some a => some a
          | none => AMap.lookup res i
      rw [lastMatch_filterMap_conds b.anchored_position_conditions pos i]

/-- C2 (amended): anchor resolution unions the explicit-id, color and
position sources, but on an index matched by several sources the
descriptor kept is the one from the LATEST source: a position-predicate
match overrides a color match, which overrides an explicit id (the
overwriting `HashMap::extend` semantics), with first-configured-color
and last-matching-condition winning inside their respective sources. -/
theorem anchor_sources_override (b : ClothBuilder) (mesh : Mesh) (i : Nat) :
    AMap.lookup (b.anchoredVertexIds mesh) i
      = match positionSourceMatch b mesh i with
        | some a => some a
        | none =>
          match colorSourceMatch b mesh i with
          | some a => some a
          | none => AMap.lookup b.anchored_vertex_ids i := by
  unfold ClothBuilder.anchoredVertexIds
  rw [lookup_positionStep, lookup_colorStep]

/-- Counterexample for C2 as stated: `testBuilder2` anchors vertex 0
explicitly with the default descriptor, and its color source also
matches vertex 0 with a custom-offset descriptor; the resolved map keeps
the color source's descriptor, not the explicit id's — the later source
overrides the earlier one. -/
theorem anchor_sources_override_cex :
    AMap.lookup (testBuilder2.anchoredVertexIds testMesh2) 0
        = some (VertexAnchor.customOffset ⟨1, 0, 0⟩)
      ∧ AMap.lookup testBuilder2.anchored_vertex_ids 0
          = some VertexAnchor.follow
      ∧ some (VertexAnchor.customOffset ⟨1, 0, 0⟩)
          ≠ some VertexAnchor.follow := by
  refine ⟨?_, rfl, by simp⟩
  rfl

end BevySilk
